import Mathlib

/-!
Verification development for the ProcImap `ImapMailbox` class
(src/ProcImap/ImapMailbox.py), a mailbox.Mailbox implementation layered
over an IMAP session.

The embedding models the mailbox client state (`MState`): the server-side
folder contents reachable through the session, the selected folder name,
the single-slot raw-message cache (`_cached_uid` / `_cached_text`, which the
source always assigns together, here an `Option (Nat × String)`), and the
`trash` attribute.  Each Python method becomes a Lean function from `MState`
to a triple `(result, new state, list of session requests issued)`, where
`result` is `Except Exc α` (Python exceptions become `Exc` values).

The Session Port (ImapServer / the IMAP server itself) is external to
src/ and is modelled from the spec (sections 3 and 6): UID search returns
the folder's UIDs in ascending-UID order serialized as a whitespace-joined
decimal list, `SEARCH ALL` includes messages flagged `\Deleted` until
EXPUNGE, fetch of an absent UID returns an OK status with an absent
payload record (`None` in imaplib), and store/copy/append/expunge have
their RFC3501 meanings.
-/

namespace ProcImap

/-- One decimal digit character. -/
def digitChar (d : Nat) : Char :=
  match d with
  | 0 => '0' | 1 => '1' | 2 => '2' | 3 => '3' | 4 => '4'
  | 5 => '5' | 6 => '6' | 7 => '7' | 8 => '8' | _ => '9'

/-- Decimal characters of `n`, most significant first; `fuel` bounds recursion. -/
def natToCharsAux : Nat → Nat → List Char
  | 0, _ => []
  | fuel + 1, n =>
    if n < 10 then [digitChar n]
    else natToCharsAux fuel (n / 10) ++ [digitChar (n % 10)]

/-- Decimal representation of `n` as characters. -/
def natToChars (n : Nat) : List Char := natToCharsAux (n + 1) n

/-- Modelled from the spec: the server serializes a UID list as
whitespace-joined decimal integers (the body of a `SEARCH` response). -/
def serializeUidsChars : List Nat → List Char
  | [] => []
  | [u] => natToChars u
  | u :: v :: rest => natToChars u ++ ' ' :: serializeUidsChars (v :: rest)

/-- Python `str.split()` with no argument: split on whitespace runs,
dropping empty tokens.  `acc` accumulates the current token. -/
def splitWsAux : List Char → List Char → List String
  | [], acc => if acc = [] then [] else [String.mk acc]
  | c :: cs, acc =>
    if c.isWhitespace then
      if acc = [] then splitWsAux cs []
      else String.mk acc :: splitWsAux cs []
    else splitWsAux cs (acc ++ [c])

/-- Python `str.split()` with no argument. -/
def splitWs (s : String) : List String := splitWsAux s.data []

/-- Value of an all-digit character list, or `none` when empty or when a
non-digit occurs: the digits part of Python `int()` on a token. -/
def parseDigits (cs : List Char) : Option Nat :=
  if cs = [] then none
  else if cs.all Char.isDigit then
    some (cs.foldl (fun a c => a * 10 + (c.toNat - 48)) 0)
  else none

/-- Python `int(token)` on the characters of a whitespace-free token:
optional sign followed by at least one decimal digit; `none` models
`ValueError`. -/
def pyIntChars (l : List Char) : Option Int :=
  match l with
  | [] => none
  | c :: cs =>
    if c = '-' then (parseDigits cs).map (fun n => -(n : Int))
    else if c = '+' then (parseDigits cs).map (fun n => (n : Int))
    else (parseDigits (c :: cs)).map (fun n => (n : Int))

/-- Python `int(token)` on a whitespace-free token string. -/
def pyInt (s : String) : Option Int := pyIntChars s.data

/-- The list comprehension `[int(uid) for uid in uidlist]`: `none` models
the `ValueError` raised by the first unparsable token. -/
def parseInts (toks : List String) : Option (List Int) := toks.mapM pyInt

/-- Python exceptions surfaced by the embedded methods. -/
inductive Exc where
  | imapNotOk (msg : String)
  | keyError (msg : String)
  | valueError (msg : String)
  | noSuchUID (msg : String)
  | attributeError
  | indexError
  | notSupported (msg : String)
deriving DecidableEq

/-- Requests issued through the session (`self._server`). -/
inductive Req where
  | fetch (uid : Nat) (part : String)
  | searchReq (charset : Option String) (criteria : String)
  | store (uid : Nat) (op : String) (flags : String)
  | copyReq (uid : Nat) (target : String)
  | appendReq (folder : String) (flags : List String) (text : String)
  | expungeReq
  | selectReq (folder : String)
  | reconnectReq
  | loginReq
deriving DecidableEq

/-- Embedding of `ImapMailbox.search` lines 261-268, as a function of the
session's `(code, data)` response, where `data0` is `data[0]` (`none`
models Python `None`).  The source calls `data[0].split()` BEFORE checking
the status code, so an absent record raises `AttributeError`; a non-OK
code then raises `ImapNotOkError`, and an unparsable token list raises
`ImapNotOkError("received unparsable response")`. -/
def search_parse (code : String) (data0 : Option String) : Except Exc (List Int) :=
  match data0 with
  | none => .error .attributeError
  | some s =>
    let uidlist := splitWs s
    if code ≠ "OK" then .error (.imapNotOk (code ++ " in search"))
    else
      match parseInts uidlist with
      | some l => .ok l
      | none => .error (.imapNotOk "received unparsable response")

/- ### Roundtrip: parsing the serialized UID list recovers the UIDs -/

theorem natToCharsAux_succ (fuel n : Nat) :
    natToCharsAux (fuel + 1) n =
      if n < 10 then [digitChar n]
      else natToCharsAux fuel (n / 10) ++ [digitChar (n % 10)] := rfl

theorem splitWsAux_nil_eq (acc : List Char) :
    splitWsAux [] acc = if acc = [] then [] else [String.mk acc] := rfl

theorem splitWsAux_cons_eq (c : Char) (cs acc : List Char) :
    splitWsAux (c :: cs) acc =
      if c.isWhitespace then
        if acc = [] then splitWsAux cs []
        else String.mk acc :: splitWsAux cs []
      else splitWsAux cs (acc ++ [c]) := rfl

theorem digitChar_isDigit (d : Nat) : (digitChar d).isDigit = true := by
  unfold digitChar; split <;> decide

theorem digitChar_not_ws (d : Nat) : (digitChar d).isWhitespace = false := by
  unfold digitChar; split <;> decide

theorem digitChar_ne_minus (d : Nat) : digitChar d ≠ '-' := by
  unfold digitChar; split <;> decide

theorem digitChar_ne_plus (d : Nat) : digitChar d ≠ '+' := by
  unfold digitChar; split <;> decide

theorem digitChar_toNat (d : Nat) (h : d < 10) : (digitChar d).toNat = 48 + d := by
  interval_cases d <;> decide

theorem natToCharsAux_ne_nil (fuel n : Nat) (h : n < fuel) :
    natToCharsAux fuel n ≠ [] := by
  cases fuel with
  | zero => omega
  | succ fuel =>
    rw [natToCharsAux_succ]
    split
    · simp
    · simp

theorem natToCharsAux_mem (fuel : Nat) : ∀ n, n < fuel →
    ∀ c ∈ natToCharsAux fuel n, ∃ d, c = digitChar d := by
  induction fuel with
  | zero => omega
  | succ fuel ih =>
    intro n _ c hc
    rw [natToCharsAux_succ] at hc
    by_cases hlt : n < 10
    · rw [if_pos hlt] at hc
      simp only [List.mem_singleton] at hc
      exact ⟨n, hc⟩
    · rw [if_neg hlt] at hc
      rcases List.mem_append.mp hc with h1 | h1
      · have hfuel : n / 10 < fuel := by
          have := Nat.div_lt_self (by omega : 0 < n) (by omega : 1 < 10)
          omega
        exact ih (n / 10) hfuel c h1
      · simp only [List.mem_singleton] at h1
        exact ⟨n % 10, h1⟩

theorem natToCharsAux_all_digit (fuel n : Nat) (h : n < fuel) :
    (natToCharsAux fuel n).all Char.isDigit = true := by
  rw [List.all_eq_true]
  intro c hc
  obtain ⟨d, hd⟩ := natToCharsAux_mem fuel n h c hc
  rw [hd]
  exact digitChar_isDigit d

theorem natToCharsAux_foldl (fuel : Nat) : ∀ n, n < fuel →
    (natToCharsAux fuel n).foldl (fun a c => a * 10 + (c.toNat - 48)) 0 = n := by
  induction fuel with
  | zero => omega
  | succ fuel ih =>
    intro n _
    rw [natToCharsAux_succ]
    by_cases hlt : n < 10
    · rw [if_pos hlt]
      simp only [List.foldl_cons, List.foldl_nil]
      rw [digitChar_toNat n hlt]
      omega
    · rw [if_neg hlt]
      have hfuel : n / 10 < fuel := by
        have := Nat.div_lt_self (by omega : 0 < n) (by omega : 1 < 10)
        omega
      rw [List.foldl_append]
      rw [ih (n / 10) hfuel]
      simp only [List.foldl_cons, List.foldl_nil]
      rw [digitChar_toNat (n % 10) (Nat.mod_lt n (by omega))]
      have := Nat.div_add_mod n 10
      omega

theorem natToChars_parse (n : Nat) : parseDigits (natToChars n) = some n := by
  unfold parseDigits natToChars
  rw [if_neg (natToCharsAux_ne_nil (n + 1) n (Nat.lt_succ_self n))]
  rw [if_pos (natToCharsAux_all_digit (n + 1) n (Nat.lt_succ_self n))]
  rw [natToCharsAux_foldl (n + 1) n (Nat.lt_succ_self n)]

theorem natToChars_ne_nil (n : Nat) : natToChars n ≠ [] :=
  natToCharsAux_ne_nil (n + 1) n (Nat.lt_succ_self n)

theorem natToChars_mem (n : Nat) : ∀ c ∈ natToChars n, ∃ d, c = digitChar d :=
  natToCharsAux_mem (n + 1) n (Nat.lt_succ_self n)

theorem pyInt_natToChars (n : Nat) :
    pyInt (String.mk (natToChars n)) = some (Int.ofNat n) := by
  show pyIntChars (natToChars n) = some (Int.ofNat n)
  rcases hd : natToChars n with _ | ⟨c, cs⟩
  · exact absurd hd (natToChars_ne_nil n)
  · have hmem : c ∈ natToChars n := by rw [hd]; exact List.mem_cons_self c cs
    obtain ⟨d, hdd⟩ := natToChars_mem n c hmem
    show (if c = '-' then (parseDigits cs).map (fun k => -(k : Int))
      else if c = '+' then (parseDigits cs).map (fun k => (k : Int))
      else (parseDigits (c :: cs)).map (fun k => (k : Int))) = some (Int.ofNat n)
    rw [if_neg (by rw [hdd]; exact digitChar_ne_minus d)]
    rw [if_neg (by rw [hdd]; exact digitChar_ne_plus d)]
    have hp := natToChars_parse n
    rw [hd] at hp
    rw [hp]
    rfl

theorem natToChars_not_ws (n : Nat) : ∀ c ∈ natToChars n, c.isWhitespace = false := by
  intro c hc
  obtain ⟨d, hd⟩ := natToChars_mem n c hc
  rw [hd]
  exact digitChar_not_ws d

theorem splitWsAux_token (tok : List Char) (rest : List Char) (acc : List Char)
    (h : ∀ c ∈ tok, c.isWhitespace = false) :
    splitWsAux (tok ++ rest) acc = splitWsAux rest (acc ++ tok) := by
  induction tok generalizing acc with
  | nil => simp
  | cons c cs ih =>
    have hc : c.isWhitespace = false := h c (List.mem_cons_self c cs)
    rw [List.cons_append, splitWsAux_cons_eq, if_neg (by simp [hc])]
    rw [ih (acc ++ [c]) (fun x hx => h x (List.mem_cons_of_mem c hx))]
    simp

theorem splitWs_serialize (uids : List Nat) :
    splitWsAux (serializeUidsChars uids) [] =
      uids.map (fun u => String.mk (natToChars u)) := by
  induction uids with
  | nil => rfl
  | cons u rest ih =>
    cases rest with
    | nil =>
      show splitWsAux (natToChars u) [] = [String.mk (natToChars u)]
      have h2 := splitWsAux_token (natToChars u) [] [] (natToChars_not_ws u)
      rw [List.append_nil] at h2
      rw [h2, splitWsAux_nil_eq, if_neg (by simp [natToChars_ne_nil u])]
      simp
    | cons v rest2 =>
      show splitWsAux (natToChars u ++ ' ' :: serializeUidsChars (v :: rest2)) []
        = String.mk (natToChars u) :: (v :: rest2).map (fun x => String.mk (natToChars x))
      rw [splitWsAux_token (natToChars u) (' ' :: serializeUidsChars (v :: rest2)) []
        (natToChars_not_ws u)]
      rw [List.nil_append, splitWsAux_cons_eq, if_pos (by decide)]
      rw [if_neg (natToChars_ne_nil u)]
      rw [ih]

theorem parseInts_serialize (uids : List Nat) :
    parseInts (uids.map (fun u => String.mk (natToChars u))) =
      some (uids.map Int.ofNat) := by
  induction uids with
  | nil => rfl
  | cons u rest ih =>
    unfold parseInts at ih ⊢
    simp only [List.map_cons, List.mapM_cons, pyInt_natToChars, ih]
    rfl

/-- An OK search response over the serialized UID list parses back to the
UIDs: the composition the real `search` performs against a well-behaved
server. -/
theorem search_parse_serialize (uids : List Nat) :
    search_parse "OK" (some (String.mk (serializeUidsChars uids))) =
      .ok (uids.map Int.ofNat) := by
  show (if "OK" ≠ "OK" then Except.error (Exc.imapNotOk ("OK" ++ " in search"))
    else match parseInts (splitWsAux (serializeUidsChars uids) []) with
      | some l => Except.ok l
      | none => Except.error (Exc.imapNotOk "received unparsable response")) = _
  rw [if_neg (by simp), splitWs_serialize, parseInts_serialize]

/- ### Data model and client state -/

/-- A message as stored server-side in one folder: UID, raw RFC822 text,
flag set, internal date. -/
structure Msg where
  uid : Nat
  text : String
  flags : List String
  idate : Nat
deriving DecidableEq

/-- The materialized view `get_message` assembles: raw text, flag snapshot,
internal date, size (the source sets these on the `ImapMessage` result). -/
structure MsgView where
  text : String
  flags : List String
  internaldate : Nat
  size : Nat
deriving DecidableEq

/-- One server folder: messages in ascending-UID order plus the next UID
the server will assign (UIDNEXT). -/
structure Folder where
  msgs : List Msg
  nextUid : Nat
deriving DecidableEq

/-- A copy/move target, resolved the way `copy` lines 605-620 does: either a
same-server `ImapMailbox` handle (identified by its folder name, since the
source first converts such a handle to its name string) or a plain folder
name string. -/
inductive Target where
  | handle (name : String)
  | str (s : String)
deriving DecidableEq

/-- The client state: server folder contents reachable through the session,
the selected folder (`self.name`), the single-slot message cache
(`_cached_uid`/`_cached_text`, always assigned together in the source), and
the `trash` attribute. -/
structure MState where
  folders : String → Folder
  sel : String
  cached : Option (Nat × String)
  trash : Option Target

/-- A message passed to `add`.  Modelled from the spec: `ImapMessage`
serialization (flag string, internal-date string) is external to src/, so a
message is its text, its flag set and its internal date. -/
structure InMsg where
  text : String
  flags : List String
  idate : Nat

/-- Result triple of an embedded method: Python result or exception, the
state afterwards, and the session requests issued in order. -/
abbrev MRes (α : Type) := Except Exc α × MState × List Req

/-- Replace one folder's contents. -/
def updFolder (st : MState) (n : String) (f : Folder) : MState :=
  { st with folders := fun k => if k = n then f else st.folders k }

/-- The source's switch on this flag is kept (lines 43-47, 294-296); it is
`False` in the source. -/
def FIX_BUGGY_IMAP_FROMLINE : Bool := false

/-- Lines 294-296: strip a buggy escaped envelope header (dead code since
`FIX_BUGGY_IMAP_FROMLINE` is false): if the text starts with `">From "`,
drop up to and including the first newline (Python `find` returning -1
leaves the string whole). -/
def stripFromLine (cs : List Char) : List Char :=
  if List.isPrefixOf ('>' :: 'F' :: 'r' :: 'o' :: 'm' :: ' ' :: []) cs then
    match cs.dropWhile (fun c => !(c == '\n')) with
    | [] => cs
    | _ :: rest => rest
  else cs

/-- Holds when the message does not carry the `\Deleted` flag. -/
def notDeleted (m : Msg) : Bool := !(m.flags.contains "\\Deleted")

/-- Messages of a folder that are not flagged `\Deleted`. -/
def undeletedOf (msgs : List Msg) : List Msg := msgs.filter notDeleted

/- ### Session Port model -/

/-- Modelled from the spec: the server's answer to a UID SEARCH over the
selected folder, keyed by the parenthesized criteria string the source
sends (`"(%s)" % criteria`).  `ALL` matches every message including
`\Deleted`-flagged ones (spec section 3: flagged-but-not-yet-expunged
ghosts stay in UID lists until expunge); unknown criteria are rejected by
the server.  Result is the matching UID list in folder (ascending-UID)
order. -/
def srvSearchData (msgs : List Msg) (crit : String) : Option (List Nat) :=
  if crit = "(ALL)" then some (msgs.map (fun m => m.uid))
  else if crit = "(UNDELETED)" then some ((undeletedOf msgs).map (fun m => m.uid))
  else if crit = "(UNSEEN UNDELETED)" then
    some (((undeletedOf msgs).filter (fun m => !(m.flags.contains "\\Seen"))).map
      (fun m => m.uid))
  else none

/-- Modelled from the spec: the `(code, data[0])` pair a UID SEARCH request
produces.  A well-formed criteria with no CHARSET argument yields OK plus
the serialized UID list; a CHARSET argument (only ever produced by the
`keys()` slip) or an unknown criteria yields a non-OK status with an
absent data record, imaplib-style. -/
def srvSearch (st : MState) (charset : Option String) (crit : String) :
    String × Option String :=
  match charset with
  | some _ => ("NO", none)
  | none =>
    match srvSearchData (st.folders st.sel).msgs crit with
    | some uids => ("OK", some (String.mk (serializeUidsChars uids)))
    | none => ("BAD", none)

/-- Modelled from the spec: a UID FETCH (RFC822) response: OK status, and the
message text when the UID exists, else an absent record (imaplib `None`). -/
def srvFetch (st : MState) (uid : Nat) : String × Option String :=
  ("OK", ((st.folders st.sel).msgs.find? (fun m => m.uid == uid)).map (fun m => m.text))

/-- Per-message effect of a UID STORE +FLAGS: add the flag (a set union, no
duplicate tokens) to a message carrying the targeted UID. -/
def addFlagUpd (uid : Nat) (f : String) (m : Msg) : Msg :=
  if m.uid == uid then
    { m with flags := if m.flags.contains f then m.flags else m.flags ++ [f] }
  else m

/-- Modelled from the spec: a UID STORE +FLAGS: add the flag to every message
with that UID; silently a no-op for an absent UID.  Always OK. -/
def srvStoreAdd (st : MState) (uid : Nat) (f : String) : MState :=
  updFolder st st.sel
    { msgs := (st.folders st.sel).msgs.map (addFlagUpd uid f),
      nextUid := (st.folders st.sel).nextUid }

/-- Modelled from the spec: a UID STORE -FLAGS: remove the flag. Always OK. -/
def srvStoreRemove (st : MState) (uid : Nat) (f : String) : MState :=
  updFolder st st.sel
    { msgs := (st.folders st.sel).msgs.map
        (fun m => if m.uid == uid then
          { m with flags := m.flags.filter (fun x => !(x == f)) } else m),
      nextUid := (st.folders st.sel).nextUid }

/-- Modelled from the spec: a UID STORE FLAGS: replace the flag set. Always OK. -/
def srvStoreSet (st : MState) (uid : Nat) (fs : List String) : MState :=
  updFolder st st.sel
    { msgs := (st.folders st.sel).msgs.map
        (fun m => if m.uid == uid then { m with flags := fs } else m),
      nextUid := (st.folders st.sel).nextUid }

/-- Modelled from the spec: a UID COPY to folder `tname`: append a copy of
the message (text, flags, internal date preserved) to the target folder
under the target's next UID; a no-op for an absent source UID. Always OK. -/
def srvCopy (st : MState) (uid : Nat) (tname : String) : MState :=
  match (st.folders st.sel).msgs.find? (fun m => m.uid == uid) with
  | some m =>
    let tf := st.folders tname
    updFolder st tname
      { msgs := tf.msgs ++ [{ m with uid := tf.nextUid }], nextUid := tf.nextUid + 1 }
  | none => st

/-- Modelled from the spec: EXPUNGE permanently removes every
`\Deleted`-flagged message from the selected folder. Always OK. -/
def srvExpunge (st : MState) : MState :=
  updFolder st st.sel
    { msgs := undeletedOf (st.folders st.sel).msgs,
      nextUid := (st.folders st.sel).nextUid }

/-- Modelled from the spec: APPEND adds the message at the end of the folder
under the folder's next UID. Always OK. -/
def srvAppend (st : MState) (n : String) (msg : InMsg) : MState :=
  let f := st.folders n
  updFolder st n
    { msgs := f.msgs ++ [⟨f.nextUid, msg.text, msg.flags, msg.idate⟩],
      nextUid := f.nextUid + 1 }

/- ### Embedded methods of ImapMailbox -/

namespace ImapMailbox

/-- Embedding of `search(criteria, charset)` lines 203-268: issue
`uid('search', charset, "(%s)" % criteria)` and run the response through
the parsing code embedded in `search_parse`. -/
def search (st : MState) (criteria : String) (charset : Option String) :
    MRes (List Int) :=
  let crit := "(" ++ criteria ++ ")"
  let resp := srvSearch st charset crit
  (search_parse resp.1 resp.2, st, [Req.searchReq charset crit])

/-- Embedding of `get_all_uids()` lines 276-281: `search("UNDELETED")`. -/
def get_all_uids (st : MState) : MRes (List Int) :=
  search st "UNDELETED" none

/-- Embedding of `get_unseen_uids()` lines 270-274: `search("UNSEEN UNDELETED")`. -/
def get_unseen_uids (st : MState) : MRes (List Int) :=
  search st "UNSEEN UNDELETED" none

/-- Embedding of `self._cached_uid != uid` of line 288: the cache hit test.  The initial
`_cached_uid` is `None` (never equal to an integer UID), so a hit requires a
cached pair whose UID equals the requested one. -/
def cacheHit (st : MState) (uid : Nat) : Bool :=
  match st.cached with
  | some (u, _) => u == uid
  | none => false

/-- Embedding of `_cache_message(uid)` lines 283-301: on a hit return the cached text with
no request; on a miss issue `uid('fetch', uid, "(RFC822)")`; an absent data
record (`data[0][1]` raising `TypeError`) becomes `KeyError`; on success
store `(uid, text)` in the cache.  The model server always answers OK, so
the line-290 non-OK branch is not reachable here. -/
def cache_message (st : MState) (uid : Nat) : MRes String :=
  if cacheHit st uid then
    (.ok (match st.cached with | some (_, t) => t | none => ""), st, [])
  else
    let req := Req.fetch uid "(RFC822)"
    match ((st.folders st.sel).msgs.find? (fun m => m.uid == uid)).map
        (fun m => m.text) with
    | none => (.error (.keyError "No message in _cache_message"), st, [req])
    | some raw =>
      let text := if FIX_BUGGY_IMAP_FROMLINE then String.mk (stripFromLine raw.data)
        else raw
      (.ok text, { st with cached := some (uid, text) }, [req])

/-- Embedding of `get_string(uid)` lines 416-421: `_cache_message(uid)`. -/
def get_string (st : MState) (uid : Nat) : MRes String :=
  cache_message st uid

/-- Embedding of `get_file(uid)` lines 423-428: the same bytes, wrapped in a StringIO
stream (the wrapping is not modelled). -/
def get_file (st : MState) (uid : Nat) : MRes String :=
  cache_message st uid

/-- Embedding of `get_imapflags(uid)` lines 547-560: `uid('fetch', uid, '(FLAGS)')`; an
absent record makes `imaplib.ParseFlags` raise `TypeError`, which the source
converts to `ValueError`.  Flag-token parsing of the response text is
modelled at the semantic level: the server model answers with the flag
set itself. -/
def get_imapflags (st : MState) (uid : Nat) : MRes (List String) :=
  let req := Req.fetch uid "(FLAGS)"
  match (st.folders st.sel).msgs.find? (fun m => m.uid == uid) with
  | some m => (.ok m.flags, st, [req])
  | none => (.error (.valueError "Unexpected results while fetching flags"), st, [req])

/-- Embedding of `get_internaldate(uid)` lines 562-577: `uid('fetch', uid,
'(INTERNALDATE)')`; an absent record raises `NoSuchUIDError` (not caught by
the `except (TypeError, ValueError)` clause). -/
def get_internaldate (st : MState) (uid : Nat) : MRes Nat :=
  let req := Req.fetch uid "(INTERNALDATE)"
  match (st.folders st.sel).msgs.find? (fun m => m.uid == uid) with
  | some m => (.ok m.idate, st, [req])
  | none => (.error (.noSuchUID "No message in get_internaldate"), st, [req])

/-- Embedding of `get_size(uid)` lines 531-545: `uid('fetch', uid, '(RFC822.SIZE)')`; an
absent record raises `NoSuchUIDError`; the SIZE-field text parse is modelled
at the semantic level (size = byte length of the text). -/
def get_size (st : MState) (uid : Nat) : MRes Nat :=
  let req := Req.fetch uid "(RFC822.SIZE)"
  match (st.folders st.sel).msgs.find? (fun m => m.uid == uid) with
  | some m => (.ok m.text.length, st, [req])
  | none => (.error (.noSuchUID "No message in get_size"), st, [req])

/-- Embedding of `get_message(uid)` lines 303-314 (also `__getitem__`): raw text through
the cache, then flags, internal date and size, assembled into the result
view.  The default `ImapMessage` factory (identity transform) is assumed. -/
def get_message (st : MState) (uid : Nat) : MRes MsgView :=
  match cache_message st uid with
  | (.error e, st1, tr1) => (.error e, st1, tr1)
  | (.ok text, st1, tr1) =>
    match get_imapflags st1 uid with
    | (.error e, st2, tr2) => (.error e, st2, tr1 ++ tr2)
    | (.ok flags, st2, tr2) =>
      match get_internaldate st2 uid with
      | (.error e, st3, tr3) => (.error e, st3, tr1 ++ tr2 ++ tr3)
      | (.ok d, st3, tr3) =>
        match get_size st3 uid with
        | (.error e, st4, tr4) => (.error e, st4, tr1 ++ tr2 ++ tr3 ++ tr4)
        | (.ok sz, st4, tr4) => (.ok ⟨text, flags, d, sz⟩, st4, tr1 ++ tr2 ++ tr3 ++ tr4)

/-- Embedding of `get(uid, default)` lines 407-414: `self[uid]`, returning `default` on
`KeyError` only. -/
def get (st : MState) (uid : Nat) (default : Option MsgView) : MRes (Option MsgView) :=
  match get_message st uid with
  | (.error (.keyError _), st1, tr1) => (.ok default, st1, tr1)
  | (.error e, st1, tr1) => (.error e, st1, tr1)
  | (.ok mv, st1, tr1) => (.ok (some mv), st1, tr1)

/-- Embedding of `expunge()` lines 791-793. -/
def expunge (st : MState) : MState × List Req :=
  (srvExpunge st, [Req.expungeReq])

/-- Embedding of `flush()` lines 499-501: `expunge()`. -/
def flush (st : MState) : MState × List Req :=
  expunge st

/-- Embedding of `reconnect()` lines 157-180: server reconnect, login and re-select of the
same folder, then rebuilding the `server` wrapper.  None of `_cached_uid`,
`_cached_text`, `name` or `trash` is assigned: the client state is
unchanged. -/
def reconnect (st : MState) : MState × List Req :=
  (st, [Req.reconnectReq, Req.loginReq, Req.selectReq st.sel])

/-- Embedding of `switch(name)` lines 183-201: flush, select the new folder, clear the
cache. -/
def switch (st : MState) (name : String) : MState × List Req :=
  let p := flush st
  ({ p.1 with sel := name, cached := none }, p.2 ++ [Req.selectReq name])

/-- The folder-name string a target resolves to in `copy`: a same-server
`ImapMailbox` handle is first replaced by its name (lines 605-607). -/
def targetName (t : Target) : String :=
  match t with
  | .handle n => n
  | .str s => s

/-- Embedding of `copy(uid, targetmailbox)` lines 596-620 restricted to same-server
targets: a handle is converted to its name string; the string branch issues
`uid('copy', uid, target)` unless the target IS the selected folder, in
which case nothing happens.  The model server always answers OK, so the
line-617 non-OK branch is not reachable here. -/
def copy (st : MState) (uid : Nat) (target : Target) : MRes Unit :=
  let tname := targetName target
  if tname = st.sel then (.ok (), st, [])
  else (.ok (), srvCopy st uid tname, [Req.copyReq uid tname])

/-- The line-633 test `(targetmailbox != self) and (targetmailbox != self.name)`.
For a same-server handle, `!= self` is mailbox equality (same server, same
name), and `!= self.name` compares a mailbox against a string, which is
always unequal in Python; for a string target, `!= self` is always true
(type mismatch) and `!= self.name` is string inequality.  Both cases reduce
to: the target's folder name differs from the selected folder. -/
def moveCond (st : MState) (target : Target) : Bool :=
  match target with
  | .handle n => !(n == st.sel)
  | .str s => !(s == st.sel)

/-- Embedding of `move(uid, targetmailbox)` lines 624-637: copy, then mark the source UID
`\Deleted` — but only when the target is not the source folder. -/
def move (st : MState) (uid : Nat) (target : Target) : MRes Unit :=
  match copy st uid target with
  | (.error e, st1, tr1) => (.error e, st1, tr1)
  | (.ok _, st1, tr1) =>
    if moveCond st target then
      (.ok (), srvStoreAdd st1 uid "\\Deleted",
        tr1 ++ [Req.store uid "+FLAGS" "(\\Deleted)"])
    else (.ok (), st1, tr1)

/-- Embedding of `add_imapflag(uid, *flags)` lines 751-759: one
`uid('store', uid, '+FLAGS', "(%s)" % flag)` per flag, sequentially.  The
model server always answers OK, so the non-OK branch is not reachable
here. -/
def add_imapflag (st : MState) (uid : Nat) (flags : List String) : MRes Unit :=
  match flags with
  | [] => (.ok (), st, [])
  | f :: rest =>
    let st1 := srvStoreAdd st uid f
    let p := add_imapflag st1 uid rest
    (p.1, p.2.1, Req.store uid "+FLAGS" ("(" ++ f ++ ")") :: p.2.2)

/-- Embedding of `remove_imapflag(uid, *flags)` lines 761-769. -/
def remove_imapflag (st : MState) (uid : Nat) (flags : List String) : MRes Unit :=
  match flags with
  | [] => (.ok (), st, [])
  | f :: rest =>
    let st1 := srvStoreRemove st uid f
    let p := remove_imapflag st1 uid rest
    (p.1, p.2.1, Req.store uid "-FLAGS" ("(" ++ f ++ ")") :: p.2.2)

/-- Embedding of `set_imapflags(uid, flags)` lines 771-783: one
`uid('store', uid, 'FLAGS', "(...)" )` request replacing the flag set. -/
def set_imapflags (st : MState) (uid : Nat) (flags : List String) : MRes Unit :=
  (.ok (), srvStoreSet st uid flags,
    [Req.store uid "FLAGS" ("(" ++ String.intercalate " " flags ++ ")")])

/-- Embedding of `discard(uid)` lines 639-648: with no trash folder, add the `\Deleted`
flag; with a trash target, `move(uid, trash)`. -/
def discard (st : MState) (uid : Nat) : MRes Unit :=
  match st.trash with
  | none => add_imapflag st uid ["\\Deleted"]
  | some t => move st uid t

/-- Embedding of `remove(uid)` lines 650-656: membership check against `search("ALL")`,
then `discard`. -/
def remove (st : MState) (uid : Nat) : MRes Unit :=
  match search st "ALL" none with
  | (.error e, st1, tr1) => (.error e, st1, tr1)
  | (.ok uids, st1, tr1) =>
    if uids.contains (Int.ofNat uid) then
      let p := discard st1 uid
      (p.1, p.2.1, tr1 ++ p.2.2)
    else (.error (.keyError ("No UID " ++ toString uid)), st1, tr1)

/-- Embedding of `__delitem__(uid)` lines 658-662: `remove(uid)`. -/
def delitem (st : MState) (uid : Nat) : MRes Unit :=
  remove st uid

/-- Embedding of `pop(uid, default)` lines 450-467: try `self[uid]`, `del self[uid]`,
`expunge()`, return the message; on `KeyError` anywhere in that block,
return `default` if it is not `None`, else raise `KeyError("No such UID")`.
`none` models Python `None`, which is both the omitted-default sentinel and
an explicitly passed `None`. -/
def pop (st : MState) (uid : Nat) (default : Option MsgView) : MRes MsgView :=
  let onKeyErr (s : MState) (tr : List Req) : MRes MsgView :=
    match default with
    | some d => (.ok d, s, tr)
    | none => (.error (.keyError "No such UID"), s, tr)
  match get_message st uid with
  | (.error (.keyError _), st1, tr1) => onKeyErr st1 tr1
  | (.error e, st1, tr1) => (.error e, st1, tr1)
  | (.ok mv, st1, tr1) =>
    match delitem st1 uid with
    | (.error (.keyError _), st2, tr2) => onKeyErr st2 (tr1 ++ tr2)
    | (.error e, st2, tr2) => (.error e, st2, tr1 ++ tr2)
    | (.ok _, st2, tr2) =>
      let p := expunge st2
      (.ok mv, p.1, tr1 ++ tr2 ++ p.2)

/-- Embedding of `popitem()` lines 469-486: expunge, `search("ALL")`, and if nonempty take
the FIRST uid, read it, delete it, expunge, and return the pair; else raise
`KeyError("Mailbox is empty")`. -/
def popitem (st : MState) : MRes (Int × MsgView) :=
  let p0 := expunge st
  match search p0.1 "ALL" none with
  | (.error e, st1, tr1) => (.error e, st1, p0.2 ++ tr1)
  | (.ok uids, st1, tr1) =>
    match uids with
    | [] => (.error (.keyError "Mailbox is empty"), st1, p0.2 ++ tr1)
    | uid :: _ =>
      match get_message st1 uid.toNat with
      | (.error e, st2, tr2) => (.error e, st2, p0.2 ++ tr1 ++ tr2)
      | (.ok mv, st2, tr2) =>
        match delitem st2 uid.toNat with
        | (.error e, st3, tr3) => (.error e, st3, p0.2 ++ tr1 ++ tr2 ++ tr3)
        | (.ok _, st3, tr3) =>
          let p4 := expunge st3
          (.ok (uid, mv), p4.1, p0.2 ++ tr1 ++ tr2 ++ tr3 ++ p4.2)

/-- Embedding of `add(message)` lines 727-748: serialize the message, APPEND it to the
selected folder, then return `self.get_all_uids()[-1]` — the LAST element of
the UNDELETED search, raising `IndexError` when that list is empty.  No
expunge/flush is issued. -/
def add (st : MState) (msg : InMsg) : MRes Int :=
  let req := Req.appendReq st.sel msg.flags msg.text
  let st1 := srvAppend st st.sel msg
  match get_all_uids st1 with
  | (.error e, st2, tr) => (.error e, st2, req :: tr)
  | (.ok l, st2, tr) =>
    match l.getLast? with
    | some u => (.ok u, st2, req :: tr)
    | none => (.error .indexError, st2, req :: tr)

/-- Embedding of `iterkeys()` lines 671-676: an iterator over `self.search("ALL")`. -/
def iterkeys (st : MState) : MRes (List Int) :=
  search st "ALL" none

/-- Embedding of `keys()` lines 678-680: the source calls `self.search(None, "ALL")`,
passing the arguments in the wrong order for its own
`search(criteria='ALL', charset=None)` signature: the criteria is Python
`None` (rendered as the string `None` by the `"(%s)"` format) and the
charset is `"ALL"`. -/
def keys (st : MState) : MRes (List Int) :=
  search st "None" (some "ALL")

end ImapMailbox

/- ### Well-formed states -/

/-- Holds when the messages are in strictly ascending UID order (the order
the server reports and the spec's uniqueness of UIDs within a folder). -/
def sortedUids : List Msg → Bool
  | [] => true
  | [_] => true
  | a :: b :: rest => decide (a.uid < b.uid) && sortedUids (b :: rest)

/-- Folder well-formedness: ascending UIDs, all below the folder's next
UID. -/
def folderWF (f : Folder) : Bool :=
  sortedUids f.msgs && f.msgs.all (fun m => decide (m.uid < f.nextUid))

/-- Cache coherence: when the cache holds `(u, t)`, any message of the
selected folder with UID `u` has text `t` (message content under a fixed
UID is immutable server-side). -/
def cacheOk (st : MState) : Bool :=
  match st.cached with
  | none => true
  | some (u, t) =>
    (st.folders st.sel).msgs.all (fun m => !(m.uid == u) || (m.text == t))

theorem sortedUids_tail (a : Msg) (l : List Msg) (h : sortedUids (a :: l) = true) :
    sortedUids l = true := by
  cases l with
  | nil => rfl
  | cons b r =>
    have h2 : (decide (a.uid < b.uid) && sortedUids (b :: r)) = true := h
    rw [Bool.and_eq_true] at h2
    exact h2.2

theorem sortedUids_head_lt (l : List Msg) : ∀ a, sortedUids (a :: l) = true →
    ∀ b ∈ l, a.uid < b.uid := by
  induction l with
  | nil =>
    intro a _ b hb
    cases hb
  | cons c r ih =>
    intro a h b hb
    have h2 : (decide (a.uid < c.uid) && sortedUids (c :: r)) = true := h
    rw [Bool.and_eq_true] at h2
    obtain ⟨h3, h4⟩ := h2
    have hac : a.uid < c.uid := of_decide_eq_true h3
    rcases List.mem_cons.mp hb with hbc | hbr
    · rw [hbc]; exact hac
    · exact Nat.lt_trans hac (ih c h4 b hbr)

theorem sortedUids_cons_of (a : Msg) (l : List Msg) (hs : sortedUids l = true)
    (hlt : ∀ b ∈ l, a.uid < b.uid) : sortedUids (a :: l) = true := by
  cases l with
  | nil => rfl
  | cons b r =>
    show (decide (a.uid < b.uid) && sortedUids (b :: r)) = true
    rw [Bool.and_eq_true]
    exact ⟨decide_eq_true (hlt b (List.mem_cons_self b r)), hs⟩

theorem sortedUids_filter (p : Msg → Bool) (l : List Msg) (h : sortedUids l = true) :
    sortedUids (l.filter p) = true := by
  induction l with
  | nil => rfl
  | cons a r ih =>
    rw [List.filter_cons]
    by_cases hp : p a = true
    · simp only [hp, if_true]
      apply sortedUids_cons_of
      · exact ih (sortedUids_tail a r h)
      · intro b hb
        exact sortedUids_head_lt r a h b (List.mem_of_mem_filter hb)
    · simp only [hp, if_false]
      exact ih (sortedUids_tail a r h)

/- ### Projection and evaluation lemmas -/

theorem updFolder_sel (st : MState) (n : String) (f : Folder) :
    (updFolder st n f).sel = st.sel := rfl

theorem updFolder_cached (st : MState) (n : String) (f : Folder) :
    (updFolder st n f).cached = st.cached := rfl

theorem updFolder_trash (st : MState) (n : String) (f : Folder) :
    (updFolder st n f).trash = st.trash := rfl

theorem updFolder_self (st : MState) (n : String) (f : Folder) :
    (updFolder st n f).folders n = f := by
  simp [updFolder]

theorem updFolder_other (st : MState) (n k : String) (f : Folder) (h : k ≠ n) :
    (updFolder st n f).folders k = st.folders k := by
  simp [updFolder, h]

theorem srvStoreAdd_msgs (st : MState) (u : Nat) (f : String) :
    ((srvStoreAdd st u f).folders st.sel).msgs =
      (st.folders st.sel).msgs.map (addFlagUpd u f) := by
  show ((updFolder st st.sel _).folders st.sel).msgs = _
  rw [updFolder_self]

theorem srvExpunge_msgs (st : MState) :
    ((srvExpunge st).folders st.sel).msgs = undeletedOf (st.folders st.sel).msgs := by
  show ((updFolder st st.sel _).folders st.sel).msgs = _
  rw [updFolder_self]

/-- Evaluation of `search("ALL")` against the modelled server: it returns the
folder's full UID list (including `\Deleted`-flagged messages), leaves the
state unchanged, and issues exactly one search request. -/
theorem search_all_eq (st : MState) :
    ImapMailbox.search st "ALL" none =
      (.ok (((st.folders st.sel).msgs.map (fun m => m.uid)).map Int.ofNat), st,
        [Req.searchReq none "(ALL)"]) := by
  have h1 : srvSearchData (st.folders st.sel).msgs "(ALL)" =
      some ((st.folders st.sel).msgs.map (fun m => m.uid)) := by
    unfold srvSearchData
    rw [if_pos rfl]
  show (search_parse (srvSearch st none "(ALL)").1 (srvSearch st none "(ALL)").2, st,
    [Req.searchReq none "(ALL)"]) = _
  unfold srvSearch
  rw [h1]
  show (search_parse "OK" (some (String.mk (serializeUidsChars
    ((st.folders st.sel).msgs.map (fun m => m.uid))))), st, _) = _
  rw [search_parse_serialize]

/-- Evaluation of `search("UNDELETED")` against the modelled server. -/
theorem search_undeleted_eq (st : MState) :
    ImapMailbox.search st "UNDELETED" none =
      (.ok ((undeletedOf (st.folders st.sel).msgs).map (fun m => m.uid)
          |>.map Int.ofNat), st,
        [Req.searchReq none "(UNDELETED)"]) := by
  have h1 : srvSearchData (st.folders st.sel).msgs "(UNDELETED)" =
      some ((undeletedOf (st.folders st.sel).msgs).map (fun m => m.uid)) := by
    unfold srvSearchData
    rw [if_neg (by decide), if_pos rfl]
  show (search_parse (srvSearch st none "(UNDELETED)").1
      (srvSearch st none "(UNDELETED)").2, st,
    [Req.searchReq none "(UNDELETED)"]) = _
  unfold srvSearch
  rw [h1]
  show (search_parse "OK" (some (String.mk (serializeUidsChars
    ((undeletedOf (st.folders st.sel).msgs).map (fun m => m.uid))))), st, _) = _
  rw [search_parse_serialize]

/-- A cache hit serves the stored bytes with no session request. -/
theorem cache_message_hit (st : MState) (u : Nat) (t : String)
    (h : st.cached = some (u, t)) :
    ImapMailbox.cache_message st u = (.ok t, st, []) := by
  unfold ImapMailbox.cache_message ImapMailbox.cacheHit
  rw [h]
  simp

/-- A cache miss on an existing UID fetches, returns the text and stores the
pair. -/
theorem cache_message_miss (st : MState) (u : Nat) (m : Msg)
    (hhit : ImapMailbox.cacheHit st u = false)
    (hfind : (st.folders st.sel).msgs.find? (fun x => x.uid == u) = some m) :
    ImapMailbox.cache_message st u =
      (.ok m.text, { st with cached := some (u, m.text) }, [Req.fetch u "(RFC822)"]) := by
  unfold ImapMailbox.cache_message
  rw [hhit]
  simp [hfind, FIX_BUGGY_IMAP_FROMLINE]

/-- A cache miss on an absent UID raises `KeyError` and leaves the state
unchanged (one fetch request is still issued). -/
theorem cache_message_absent (st : MState) (u : Nat)
    (hhit : ImapMailbox.cacheHit st u = false)
    (hfind : (st.folders st.sel).msgs.find? (fun x => x.uid == u) = none) :
    ImapMailbox.cache_message st u =
      (.error (.keyError "No message in _cache_message"), st, [Req.fetch u "(RFC822)"]) := by
  unfold ImapMailbox.cache_message
  rw [hhit]
  simp [hfind]

/-- On a coherent state, `get_message` of a present UID assembles exactly the
stored message's view; the state change is confined to the cache slot. -/
theorem get_message_found (st : MState) (u : Nat) (m : Msg)
    (hfind : (st.folders st.sel).msgs.find? (fun x => x.uid == u) = some m)
    (hcache : cacheOk st = true) :
    ∃ c tr, ImapMailbox.get_message st u =
      (.ok ⟨m.text, m.flags, m.idate, m.text.length⟩, { st with cached := c }, tr) := by
  have hmem : m ∈ (st.folders st.sel).msgs := List.mem_of_find?_eq_some hfind
  have hpred0 := List.find?_some hfind
  have hpred : (m.uid == u) = true := hpred0
  by_cases hh : ImapMailbox.cacheHit st u = true
  · obtain ⟨u2, t, hc⟩ : ∃ u2 t, st.cached = some (u2, t) := by
      unfold ImapMailbox.cacheHit at hh
      rcases hcc : st.cached with _ | ⟨u2, t⟩
      · rw [hcc] at hh; exact absurd hh (by simp)
      · exact ⟨u2, t, rfl⟩
    have hu2 : u2 = u := by
      unfold ImapMailbox.cacheHit at hh
      rw [hc] at hh
      exact eq_of_beq hh
    have htext : m.text = t := by
      unfold cacheOk at hcache
      rw [hc] at hcache
      have := List.all_eq_true.mp hcache m hmem
      rw [hu2] at this
      rw [hpred] at this
      simp only [Bool.not_true, Bool.false_or] at this
      exact eq_of_beq this
    have hserve : ImapMailbox.cache_message st u = (.ok m.text, st, []) := by
      rw [cache_message_hit st u t (by rw [hc, hu2])]
      rw [htext]
    refine ⟨st.cached, [Req.fetch u "(FLAGS)", Req.fetch u "(INTERNALDATE)",
      Req.fetch u "(RFC822.SIZE)"], ?_⟩
    have hst : ({ st with cached := st.cached } : MState) = st := rfl
    rw [hst]
    unfold ImapMailbox.get_message
    simp only [hserve]
    unfold ImapMailbox.get_imapflags ImapMailbox.get_internaldate ImapMailbox.get_size
    simp only [hfind]
    rfl
  · have hh2 : ImapMailbox.cacheHit st u = false := by
      rcases hb : ImapMailbox.cacheHit st u
      · rfl
      · exact absurd hb hh
    refine ⟨some (u, m.text), [Req.fetch u "(RFC822)", Req.fetch u "(FLAGS)",
      Req.fetch u "(INTERNALDATE)", Req.fetch u "(RFC822.SIZE)"], ?_⟩
    unfold ImapMailbox.get_message
    simp only [cache_message_miss st u m hh2 hfind]
    unfold ImapMailbox.get_imapflags ImapMailbox.get_internaldate ImapMailbox.get_size
    simp only [hfind]
    rfl

/-- On a state where the UID is absent and not the cached one, `get_message`
raises the `KeyError` of `_cache_message`. -/
theorem get_message_absent (st : MState) (u : Nat)
    (hhit : ImapMailbox.cacheHit st u = false)
    (hfind : (st.folders st.sel).msgs.find? (fun x => x.uid == u) = none) :
    ImapMailbox.get_message st u =
      (.error (.keyError "No message in _cache_message"), st, [Req.fetch u "(RFC822)"]) := by
  unfold ImapMailbox.get_message
  rw [cache_message_absent st u hhit hfind]

/-- Single-flag `add_imapflag` evaluates to one +FLAGS store. -/
theorem add_imapflag_one (st : MState) (u : Nat) (f : String) :
    ImapMailbox.add_imapflag st u [f] =
      (.ok (), srvStoreAdd st u f, [Req.store u "+FLAGS" ("(" ++ f ++ ")")]) := rfl

/-- The UID list of the selected folder: what `search("ALL")` reports. -/
def allUids (st : MState) : List Nat :=
  (st.folders st.sel).msgs.map (fun m => m.uid)

theorem folderWF_lt (f : Folder) (h : folderWF f = true) :
    ∀ m ∈ f.msgs, m.uid < f.nextUid := by
  unfold folderWF at h
  rw [Bool.and_eq_true] at h
  intro m hm
  exact of_decide_eq_true (List.all_eq_true.mp h.2 m hm)

theorem folderWF_sorted (f : Folder) (h : folderWF f = true) :
    sortedUids f.msgs = true := by
  unfold folderWF at h
  rw [Bool.and_eq_true] at h
  exact h.1

theorem addFlagUpd_uid (u : Nat) (f : String) (m : Msg) :
    (addFlagUpd u f m).uid = m.uid := by
  unfold addFlagUpd
  split <;> rfl

/-- A +FLAGS store does not change the UID list of the selected folder. -/
theorem allUids_srvStoreAdd (st : MState) (u : Nat) (f : String) :
    allUids (srvStoreAdd st u f) = allUids st := by
  unfold allUids
  have hsel : (srvStoreAdd st u f).sel = st.sel := rfl
  rw [hsel, srvStoreAdd_msgs, List.map_map]
  apply List.map_congr_left
  intro m _
  exact addFlagUpd_uid u f m

/-- After adding `\Deleted` to UID `u` and expunging, no message with UID `u`
remains (no well-formedness needed: the store hits every message carrying
that UID). -/
theorem addDel_expunge_not_mem (msgs : List Msg) (u : Nat) :
    u ∉ (undeletedOf (msgs.map (addFlagUpd u "\\Deleted"))).map (fun m => m.uid) := by
  intro hmem
  rcases List.mem_map.mp hmem with ⟨x, hx, hxu⟩
  have hx1 : x ∈ msgs.map (addFlagUpd u "\\Deleted") := List.mem_of_mem_filter hx
  have hx2 : notDeleted x = true := List.of_mem_filter hx
  rcases List.mem_map.mp hx1 with ⟨y, _, hyx⟩
  by_cases hyu : (y.uid == u) = true
  · have hflag : x.flags.contains "\\Deleted" = true := by
      rw [← hyx]
      unfold addFlagUpd
      rw [if_pos hyu]
      by_cases hyd : y.flags.contains "\\Deleted" = true
      · rw [if_pos hyd]
        exact hyd
      · rw [if_neg hyd]
        have : ("\\Deleted" : String) ∈ y.flags ++ ["\\Deleted"] :=
          List.mem_append_right _ (List.mem_singleton_self _)
        exact List.elem_eq_true_of_mem this
    unfold notDeleted at hx2
    rw [hflag] at hx2
    exact Bool.noConfusion hx2
  · have hxy : x = y := by
      rw [← hyx]
      unfold addFlagUpd
      rw [if_neg hyu]
    rw [hxy] at hxu
    exact hyu (by rw [hxu]; simp)

/-- Flagging the head of an ascending undeleted run `\Deleted` and filtering
the deleted messages away leaves exactly the tail. -/
theorem undeletedOf_addDel_head (m : Msg) (rest : List Msg)
    (hm : notDeleted m = true)
    (hrest : ∀ x ∈ rest, notDeleted x = true)
    (hlt : ∀ x ∈ rest, m.uid < x.uid) :
    undeletedOf ((m :: rest).map (addFlagUpd m.uid "\\Deleted")) = rest := by
  have hmap : rest.map (addFlagUpd m.uid "\\Deleted") = rest := by
    have hid : ∀ x ∈ rest, addFlagUpd m.uid "\\Deleted" x = id x := by
      intro x hx
      have hne : ¬(x.uid == m.uid) = true := by
        simp only [beq_iff_eq]
        exact Nat.ne_of_gt (hlt x hx)
      unfold addFlagUpd
      rw [if_neg hne]
      rfl
    rw [List.map_congr_left hid, List.map_id]
  have hdel : m.flags.contains "\\Deleted" = false := by
    unfold notDeleted at hm
    rcases hb : m.flags.contains "\\Deleted"
    · rfl
    · rw [hb] at hm
      exact Bool.noConfusion hm
  have hhead : addFlagUpd m.uid "\\Deleted" m =
      { m with flags := m.flags ++ ["\\Deleted"] } := by
    unfold addFlagUpd
    rw [if_pos (by simp), if_neg (by rw [hdel]; simp)]
  unfold undeletedOf
  rw [List.map_cons, hhead, hmap, List.filter_cons]
  have hnd : notDeleted { m with flags := m.flags ++ ["\\Deleted"] } = false := by
    have hin : ("\\Deleted" : String) ∈ m.flags ++ ["\\Deleted"] :=
      List.mem_append_right _ (List.mem_singleton_self _)
    have hcont : (m.flags ++ ["\\Deleted"]).contains "\\Deleted" = true :=
      List.elem_eq_true_of_mem hin
    unfold notDeleted
    rw [show ({ m with flags := m.flags ++ ["\\Deleted"] } : Msg).flags
      = m.flags ++ ["\\Deleted"] from rfl]
    rw [hcont]
    rfl
  rw [if_neg (by rw [hnd]; simp)]
  exact List.filter_eq_self.mpr hrest

/-- Expunging preserves cache coherence (it only removes messages). -/
theorem cacheOk_srvExpunge (st : MState) (h : cacheOk st = true) :
    cacheOk (srvExpunge st) = true := by
  unfold cacheOk at h ⊢
  rcases hc : st.cached with _ | ⟨u, t⟩
  · have : (srvExpunge st).cached = none := by
      show st.cached = none
      exact hc
    rw [this]
  · have hc2 : (srvExpunge st).cached = some (u, t) := by
      show st.cached = some (u, t)
      exact hc
    rw [hc2]
    rw [hc] at h
    rw [List.all_eq_true] at h ⊢
    intro x hx
    have hsel : (srvExpunge st).sel = st.sel := rfl
    rw [hsel, srvExpunge_msgs] at hx
    exact h x (List.mem_of_mem_filter hx)

/-- Closed-form evaluation of `copy` over the two target shapes. -/
theorem copy_cases (st : MState) (u : Nat) (tgt : Target) :
    ImapMailbox.copy st u tgt =
      (.ok (),
        if ImapMailbox.targetName tgt = st.sel then st
          else srvCopy st u (ImapMailbox.targetName tgt),
        if ImapMailbox.targetName tgt = st.sel then []
          else [Req.copyReq u (ImapMailbox.targetName tgt)]) := by
  unfold ImapMailbox.copy
  by_cases h : ImapMailbox.targetName tgt = st.sel
  · rw [if_pos h, if_pos h, if_pos h]
  · rw [if_neg h, if_neg h, if_neg h]

theorem moveCond_iff (st : MState) (tgt : Target) :
    ImapMailbox.moveCond st tgt = true ↔ ImapMailbox.targetName tgt ≠ st.sel := by
  unfold ImapMailbox.moveCond ImapMailbox.targetName
  cases tgt <;> simp

theorem srvCopy_cached (st : MState) (u : Nat) (n : String) :
    (srvCopy st u n).cached = st.cached := by
  unfold srvCopy
  split
  · rfl
  · rfl

theorem srvCopy_sel (st : MState) (u : Nat) (n : String) :
    (srvCopy st u n).sel = st.sel := by
  unfold srvCopy
  split
  · rfl
  · rfl

theorem srvCopy_trash (st : MState) (u : Nat) (n : String) :
    (srvCopy st u n).trash = st.trash := by
  unfold srvCopy
  split
  · rfl
  · rfl

theorem move_cached (st : MState) (u : Nat) (tgt : Target) :
    (ImapMailbox.move st u tgt).2.1.cached = st.cached := by
  unfold ImapMailbox.move
  simp only [copy_cases]
  by_cases hm : ImapMailbox.moveCond st tgt = true
  · simp only [hm, if_true]
    by_cases ht : ImapMailbox.targetName tgt = st.sel
    · simp only [ht, if_pos rfl]
      rfl
    · simp only [if_neg ht]
      show (srvCopy st u (ImapMailbox.targetName tgt)).cached = st.cached
      exact srvCopy_cached st u (ImapMailbox.targetName tgt)
  · have hm2 : ImapMailbox.moveCond st tgt = false := by
      rcases hb : ImapMailbox.moveCond st tgt
      · rfl
      · exact absurd hb hm
    simp only [hm2, Bool.false_eq_true, if_false]
    by_cases ht : ImapMailbox.targetName tgt = st.sel
    · simp [ht]
    · simp only [if_neg ht]
      exact srvCopy_cached st u (ImapMailbox.targetName tgt)

theorem add_imapflag_cached (st : MState) (u : Nat) (fs : List String) :
    (ImapMailbox.add_imapflag st u fs).2.1.cached = st.cached := by
  induction fs generalizing st with
  | nil => rfl
  | cons f rest ih =>
    show (ImapMailbox.add_imapflag (srvStoreAdd st u f) u rest).2.1.cached = st.cached
    rw [ih (srvStoreAdd st u f)]
    rfl

theorem remove_imapflag_cached (st : MState) (u : Nat) (fs : List String) :
    (ImapMailbox.remove_imapflag st u fs).2.1.cached = st.cached := by
  induction fs generalizing st with
  | nil => rfl
  | cons f rest ih =>
    show (ImapMailbox.remove_imapflag (srvStoreRemove st u f) u rest).2.1.cached = st.cached
    rw [ih (srvStoreRemove st u f)]
    rfl

theorem set_imapflags_cached (st : MState) (u : Nat) (fs : List String) :
    (ImapMailbox.set_imapflags st u fs).2.1.cached = st.cached := rfl

theorem discard_cached (st : MState) (u : Nat) :
    (ImapMailbox.discard st u).2.1.cached = st.cached := by
  unfold ImapMailbox.discard
  rcases ht : st.trash with _ | t
  · exact add_imapflag_cached st u ["\\Deleted"]
  · exact move_cached st u t

theorem remove_cached (st : MState) (u : Nat) :
    (ImapMailbox.remove st u).2.1.cached = st.cached := by
  unfold ImapMailbox.remove
  simp only [search_all_eq]
  by_cases hc : (((st.folders st.sel).msgs.map (fun m => m.uid)).map
      Int.ofNat).contains (Int.ofNat u) = true
  · rw [if_pos hc]
    exact discard_cached st u
  · have hc2 : (((st.folders st.sel).msgs.map (fun m => m.uid)).map
        Int.ofNat).contains (Int.ofNat u) = false := by
      rcases hb : (((st.folders st.sel).msgs.map (fun m => m.uid)).map
        Int.ofNat).contains (Int.ofNat u)
      · exact hb
      · exact absurd hb hc
    rw [if_neg (by rw [hc2]; simp)]

/-- Evaluation of `remove(u)` for a present UID on a state with no trash
folder: one search request, then one +FLAGS `\Deleted` store. -/
theorem remove_found_notrash (st : MState) (u : Nat)
    (htrash : st.trash = none)
    (hmem : u ∈ (st.folders st.sel).msgs.map (fun m => m.uid)) :
    ImapMailbox.remove st u =
      (.ok (), srvStoreAdd st u "\\Deleted",
        [Req.searchReq none "(ALL)", Req.store u "+FLAGS" "(\\Deleted)"]) := by
  unfold ImapMailbox.remove
  simp only [search_all_eq]
  have hmem2 : Int.ofNat u ∈ ((st.folders st.sel).msgs.map (fun m => m.uid)).map
      Int.ofNat := List.mem_map_of_mem Int.ofNat hmem
  have hcont : (((st.folders st.sel).msgs.map (fun m => m.uid)).map
      Int.ofNat).contains (Int.ofNat u) = true := List.elem_eq_true_of_mem hmem2
  rw [if_pos hcont]
  unfold ImapMailbox.discard
  simp only [htrash]
  simp only [add_imapflag_one]
  rfl

theorem cacheHit_of_cached (st : MState) (u : Nat) (t : String)
    (h : st.cached = some (u, t)) (v : Nat) :
    ImapMailbox.cacheHit st v = (u == v) := by
  unfold ImapMailbox.cacheHit
  rw [h]

/-- Any `_cache_message` call that is a miss issues exactly one fetch
request, and stores the fetched pair on success. -/
theorem cache_message_miss_trace (st : MState) (v : Nat)
    (hhit : ImapMailbox.cacheHit st v = false) :
    (ImapMailbox.cache_message st v).2.2 = [Req.fetch v "(RFC822)"]
    ∧ ∀ t2 st2 tr2, ImapMailbox.cache_message st v = (.ok t2, st2, tr2) →
        st2.cached = some (v, t2) := by
  rcases hf : (st.folders st.sel).msgs.find? (fun x => x.uid == v) with _ | m
  · rw [cache_message_absent st v hhit hf]
    refine ⟨rfl, ?_⟩
    intro t2 st2 tr2 heq
    simp at heq
  · rw [cache_message_miss st v m hhit hf]
    refine ⟨rfl, ?_⟩
    intro t2 st2 tr2 heq
    simp only [Prod.mk.injEq, Except.ok.injEq] at heq
    obtain ⟨h1, h2, _⟩ := heq
    rw [← h2]
    show some (v, m.text) = some (v, t2)
    rw [h1]

theorem moveCond_eq_false (st : MState) (tgt : Target)
    (h : ImapMailbox.targetName tgt = st.sel) :
    ImapMailbox.moveCond st tgt = false := by
  rcases hb : ImapMailbox.moveCond st tgt
  · rfl
  · exact absurd h ((moveCond_iff st tgt).mp hb)

/-- Closed-form evaluation of `move` over same-server targets. -/
theorem move_eval (st : MState) (u : Nat) (tgt : Target) :
    ImapMailbox.move st u tgt =
      if ImapMailbox.targetName tgt = st.sel then (.ok (), st, [])
      else (.ok (),
        srvStoreAdd (srvCopy st u (ImapMailbox.targetName tgt)) u "\\Deleted",
        [Req.copyReq u (ImapMailbox.targetName tgt),
          Req.store u "+FLAGS" "(\\Deleted)"]) := by
  unfold ImapMailbox.move
  simp only [copy_cases]
  by_cases ht : ImapMailbox.targetName tgt = st.sel
  · have hmc := moveCond_eq_false st tgt ht
    rw [if_neg (by rw [hmc]; simp)]
    rw [if_pos ht, if_pos ht, if_pos ht]
  · have hmc : ImapMailbox.moveCond st tgt = true := (moveCond_iff st tgt).mpr ht
    rw [if_pos hmc]
    rw [if_neg ht, if_neg ht, if_neg ht]
    rfl

/- ### Concrete states for witnesses and counterexamples -/

def msg5 : Msg := ⟨5, "msg five", [], 100⟩

def msg9 : Msg := ⟨9, "msg nine", [], 200⟩

def msg12 : Msg := ⟨12, "msg twelve", [], 300⟩

/-- A folder assignment: INBOX holds UIDs 5, 9, 12, everything else empty. -/
def exFolders : String → Folder := fun n =>
  if n = "INBOX" then { msgs := [msg5, msg9, msg12], nextUid := 13 }
  else { msgs := [], nextUid := 1 }

/-- A mailbox selected on INBOX with three undeleted messages. -/
def exSt : MState :=
  { folders := exFolders, sel := "INBOX", cached := none, trash := none }

/-- The state `exSt` reaches after a successful raw fetch of UID 5. -/
def exStC : MState := { exSt with cached := some (5, "msg five") }

/-- A mailbox whose only message is flagged `\Deleted` (so "ALL" is empty
after the initial flush). -/
def exDelSt : MState :=
  { folders := fun n =>
      if n = "INBOX" then { msgs := [⟨3, "gone", ["\\Deleted"], 7⟩], nextUid := 4 }
      else { msgs := [], nextUid := 1 },
    sel := "INBOX", cached := none, trash := none }

/-- A mailbox with one undeleted message of UID 1. -/
def c2St : MState :=
  { folders := fun n =>
      if n = "INBOX" then { msgs := [⟨1, "a", [], 10⟩], nextUid := 2 }
      else { msgs := [], nextUid := 1 },
    sel := "INBOX", cached := none, trash := none }

/-- A message carrying the `\Deleted` flag, to be passed to `add`. -/
def c2Msg : InMsg := ⟨"del msg", ["\\Deleted"], 20⟩

/-- The state `exSt` with a stale cached pair for UID 7. -/
def c5St : MState := { exSt with cached := some (7, "old bytes") }

/-- The state `exSt` with a trash folder configured. -/
def c6St : MState := { exSt with trash := some (Target.str "Trash") }

/-- An empty mailbox that still caches bytes for the (now absent) UID 5. -/
def c10St : MState :=
  { folders := fun _ => { msgs := [], nextUid := 1 },
    sel := "INBOX", cached := some (5, "stale"), trash := none }

/-- An empty mailbox with an empty cache. -/
def c10Empty : MState :=
  { folders := fun _ => { msgs := [], nextUid := 1 },
    sel := "INBOX", cached := none, trash := none }

/-- An arbitrary default message view. -/
def someView : MsgView := ⟨"d", [], 0, 1⟩

/- ### Claims -/

/-- C1: the single-slot message cache: a successful raw fetch of UID `u`
leaves the cache holding exactly the single pair `(u, t)` (the slot is one
`Option` pair, mirroring the two always-jointly-assigned fields of the
source); a second `_cache_message(u)` is a pure cache hit — no request, the
stored bytes, same state; the first call issued exactly one
`uid('fetch', u, "(RFC822)")` request when `u` was not already the cached
UID; and a fetch of any `v ≠ u` is a miss that issues a new fetch request
and, on success, replaces the cached pair by `(v, t2)`. -/
theorem c1_cache_single_slot (st : MState) (u : Nat) (t : String) (st1 : MState)
    (tr : List Req)
    (h : ImapMailbox.cache_message st u = (.ok t, st1, tr)) :
    st1.cached = some (u, t)
    ∧ ImapMailbox.cache_message st1 u = (.ok t, st1, [])
    ∧ (ImapMailbox.cacheHit st u = false → tr = [Req.fetch u "(RFC822)"])
    ∧ ∀ v, v ≠ u →
        (ImapMailbox.cache_message st1 v).2.2 = [Req.fetch v "(RFC822)"]
        ∧ ∀ t2 st2 tr2, ImapMailbox.cache_message st1 v = (.ok t2, st2, tr2) →
            st2.cached = some (v, t2) := by
  have hkey : st1.cached = some (u, t) ∧
      (ImapMailbox.cacheHit st u = false → tr = [Req.fetch u "(RFC822)"]) := by
    by_cases hh : ImapMailbox.cacheHit st u = true
    · rcases hc : st.cached with _ | ⟨u2, t2⟩
      · unfold ImapMailbox.cacheHit at hh
        rw [hc] at hh
        exact absurd hh (by simp)
      · have hu2 : u2 = u := by
          unfold ImapMailbox.cacheHit at hh
          rw [hc] at hh
          exact eq_of_beq hh
        unfold ImapMailbox.cache_message at h
        rw [if_pos hh] at h
        simp only [hc] at h
        simp only [Prod.mk.injEq, Except.ok.injEq] at h
        obtain ⟨h1, h2, h3⟩ := h
        constructor
        · rw [← h2, hc, hu2, h1]
        · intro habs
          rw [habs] at hh
          exact Bool.noConfusion hh
    · have hh2 : ImapMailbox.cacheHit st u = false := by
        rcases hb : ImapMailbox.cacheHit st u
        · rfl
        · exact absurd hb hh
      rcases hf : (st.folders st.sel).msgs.find? (fun x => x.uid == u) with _ | m
      · rw [cache_message_absent st u hh2 hf] at h
        simp at h
      · rw [cache_message_miss st u m hh2 hf] at h
        simp only [Prod.mk.injEq, Except.ok.injEq] at h
        obtain ⟨h1, h2, h3⟩ := h
        constructor
        · rw [← h2]
          show some (u, m.text) = some (u, t)
          rw [h1]
        · intro _
          rw [← h3]
  refine ⟨hkey.1, cache_message_hit st1 u t hkey.1, hkey.2, ?_⟩
  intro v hvu
  have hmiss : ImapMailbox.cacheHit st1 v = false := by
    rw [cacheHit_of_cached st1 u t hkey.1 v]
    exact beq_eq_false_iff_ne.mpr (fun he => hvu he.symm)
  exact cache_message_miss_trace st1 v hmiss

/-- C1 witness: on the concrete mailbox, fetching UID 5 caches
`(5, "msg five")`; the repeat call is a hit with no request; fetching UID 9
issues a new request. -/
theorem c1_cache_single_slot_witness :
    ImapMailbox.cache_message exStC 5 = (.ok "msg five", exStC, [])
    ∧ (ImapMailbox.cache_message exStC 9).2.2 = [Req.fetch 9 "(RFC822)"] := by
  have h := c1_cache_single_slot exSt 5 "msg five" exStC [Req.fetch 5 "(RFC822)"] rfl
  exact ⟨h.2.1, (h.2.2.2 9 (by decide)).1⟩

/-- C3 (code bug): lines 261-268 run `data[0].split()` BEFORE checking the
status code, so a non-OK response whose data record is absent (`[None]`,
the shape imaplib produces when no untagged SEARCH response arrived)
raises `AttributeError` instead of the documented `ImapNotOkError`.  With a
present body, non-OK raises `ImapNotOkError`; an OK response with an
unparsable token list raises the parse `ImapNotOkError` (the source uses
the same exception class for the parse failure); a well-formed OK response
parses to the integer list. -/
theorem c3_search_error_paths :
    search_parse "NO" none = .error .attributeError
    ∧ search_parse "NO" (some "") = .error (.imapNotOk "NO in search")
    ∧ search_parse "OK" (some "5 abc") =
        .error (.imapNotOk "received unparsable response")
    ∧ search_parse "OK" (some "5 9 12") = .ok [5, 9, 12] :=
  ⟨rfl, rfl, rfl, rfl⟩

/-- C4 (code bug): `keys()` calls `self.search(None, "ALL")` with the
arguments in swapped positions for its own
`search(criteria='ALL', charset=None)` signature: the request carries
criteria `"(None)"` and charset `"ALL"`, differing from the
`uid('search', None, "(ALL)")` request `iterkeys()` issues, and it fails
instead of returning the UID snapshot. -/
theorem c4_keys_iterkeys_bug :
    ImapMailbox.keys exSt =
      (.error .attributeError, exSt, [Req.searchReq (some "ALL") "(None)"])
    ∧ ImapMailbox.iterkeys exSt =
      (.ok [5, 9, 12], exSt, [Req.searchReq none "(ALL)"])
    ∧ (ImapMailbox.keys exSt).1 ≠ (ImapMailbox.iterkeys exSt).1 := by
  refine ⟨rfl, rfl, ?_⟩
  have h1 : (ImapMailbox.keys exSt).1 = .error .attributeError := rfl
  have h2 : (ImapMailbox.iterkeys exSt).1 = .ok [5, 9, 12] := rfl
  rw [h1, h2]
  intro hx
  exact Except.noConfusion hx

/-- C5 counterexample: after `reconnect()` the cached pair for UID 7 is still
present (not cleared), and the next raw fetch of UID 7 serves the
pre-reconnect bytes with no request — refuting that reconnect discards the
cache. -/
theorem c5_reconnect_counterexample :
    (ImapMailbox.reconnect c5St).1.cached = some (7, "old bytes")
    ∧ (ImapMailbox.reconnect c5St).1.cached ≠ none
    ∧ ImapMailbox.cache_message (ImapMailbox.reconnect c5St).1 7 =
        (.ok "old bytes", c5St, []) := by
    refine ⟨rfl, ?_, rfl⟩
    intro hx
    exact Option.noConfusion hx

/-- C5 amended: `reconnect()` re-authenticates and re-selects but leaves the
whole client state — including the single-slot cache — unchanged; a cached
UID is afterwards served from the pre-reconnect cache without a fetch
request.  The cache is cleared by `switch`, not by `reconnect`. -/
theorem c5_reconnect_keeps_cache (st : MState) (u : Nat) (t : String)
    (h : st.cached = some (u, t)) :
    (ImapMailbox.reconnect st).1 = st
    ∧ (ImapMailbox.reconnect st).2 =
        [Req.reconnectReq, Req.loginReq, Req.selectReq st.sel]
    ∧ ImapMailbox.cache_message (ImapMailbox.reconnect st).1 u = (.ok t, st, [])
    ∧ ∀ n, (ImapMailbox.switch st n).1.cached = none :=
  ⟨rfl, rfl, cache_message_hit st u t h, fun _ => rfl⟩

/-- C5 witness: the amended reconnect behaviour at the concrete state. -/
theorem c5_reconnect_witness :
    (ImapMailbox.reconnect c5St).1 = c5St
    ∧ ImapMailbox.cache_message (ImapMailbox.reconnect c5St).1 7 =
        (.ok "old bytes", c5St, []) := by
  have h := c5_reconnect_keeps_cache c5St 7 "old bytes" rfl
  exact ⟨h.1, h.2.2.1⟩

/-- C7: `move(u, target)` with the target resolving to the source folder
(same-server handle or the folder's own name) is a complete no-op: no copy
request, no store request, state unchanged (hence message count and flags
unchanged, no deletion); and the `\Deleted` store request is issued exactly
when the target is NOT the source folder. -/
theorem c7_move_same_folder_noop (st : MState) (u : Nat) (tgt : Target) :
    (ImapMailbox.targetName tgt = st.sel →
      ImapMailbox.move st u tgt = (.ok (), st, []))
    ∧ ((Req.store u "+FLAGS" "(\\Deleted)") ∈ (ImapMailbox.move st u tgt).2.2 ↔
        ImapMailbox.targetName tgt ≠ st.sel) := by
  rw [move_eval]
  by_cases ht : ImapMailbox.targetName tgt = st.sel
  · rw [if_pos ht]
    refine ⟨fun _ => rfl, ?_⟩
    constructor
    · intro hmem
      exact absurd hmem (List.not_mem_nil _)
    · intro hne
      exact absurd ht hne
  · rw [if_neg ht]
    refine ⟨fun hx => absurd hx ht, ?_⟩
    constructor
    · intro _
      exact ht
    · intro _
      show Req.store u "+FLAGS" "(\\Deleted)" ∈ [Req.copyReq u _, Req.store u "+FLAGS" "(\\Deleted)"]
      exact List.mem_cons_of_mem _ (List.mem_singleton_self _)

/-- C7 witness: moving UID 5 to the same folder (handle or name) is a no-op
on the concrete mailbox; moving it to another folder issues the `\Deleted`
store. -/
theorem c7_move_witness :
    ImapMailbox.move exSt 5 (Target.handle "INBOX") = (.ok (), exSt, [])
    ∧ ImapMailbox.move exSt 5 (Target.str "INBOX") = (.ok (), exSt, [])
    ∧ (Req.store 5 "+FLAGS" "(\\Deleted)") ∈
        (ImapMailbox.move exSt 5 (Target.str "Archive")).2.2 := by
  refine ⟨?_, ?_, ?_⟩
  · exact (c7_move_same_folder_noop exSt 5 (Target.handle "INBOX")).1 rfl
  · exact (c7_move_same_folder_noop exSt 5 (Target.str "INBOX")).1 rfl
  · exact (c7_move_same_folder_noop exSt 5 (Target.str "Archive")).2.mpr (by decide)

/-- C9: no flag or deletion operation (`add_imapflag`, `remove_imapflag`,
`set_imapflags`, `discard`, `remove`, `__delitem__`) modifies or
invalidates the single-slot raw-message cache: the cached pair is exactly
what it was before, and a subsequent raw read (`get_string`, i.e.
`_cache_message`) for the cached UID still returns the previously cached
bytes with no fetch request. -/
theorem c9_flag_ops_preserve_cache (st : MState) (u : Nat) (t : String)
    (uid : Nat) (fs : List String) (h : st.cached = some (u, t)) :
    (ImapMailbox.add_imapflag st uid fs).2.1.cached = some (u, t)
    ∧ (ImapMailbox.remove_imapflag st uid fs).2.1.cached = some (u, t)
    ∧ (ImapMailbox.set_imapflags st uid fs).2.1.cached = some (u, t)
    ∧ (ImapMailbox.discard st uid).2.1.cached = some (u, t)
    ∧ (ImapMailbox.remove st uid).2.1.cached = some (u, t)
    ∧ (ImapMailbox.delitem st uid).2.1.cached = some (u, t)
    ∧ ImapMailbox.get_string (ImapMailbox.discard st u).2.1 u =
        (.ok t, (ImapMailbox.discard st u).2.1, [])
    ∧ ImapMailbox.get_string (ImapMailbox.add_imapflag st u fs).2.1 u =
        (.ok t, (ImapMailbox.add_imapflag st u fs).2.1, []) := by
  refine ⟨?_, ?_, ?_, ?_, ?_, ?_, ?_, ?_⟩
  · rw [add_imapflag_cached]
    exact h
  · rw [remove_imapflag_cached]
    exact h
  · rw [set_imapflags_cached]
    exact h
  · rw [discard_cached]
    exact h
  · rw [remove_cached]
    exact h
  · show (ImapMailbox.remove st uid).2.1.cached = some (u, t)
    rw [remove_cached]
    exact h
  · exact cache_message_hit _ u t (by rw [discard_cached]; exact h)
  · exact cache_message_hit _ u t (by rw [add_imapflag_cached]; exact h)

/-- C9 witness: with UID 5 cached, `discard(5)` and `add_imapflag(5, …)`
leave the cache intact and the next raw read of UID 5 is request-free. -/
theorem c9_flag_ops_witness :
    (ImapMailbox.discard exStC 5).2.1.cached = some (5, "msg five")
    ∧ ImapMailbox.get_string (ImapMailbox.discard exStC 5).2.1 5 =
        (.ok "msg five", (ImapMailbox.discard exStC 5).2.1, []) := by
  have h := c9_flag_ops_preserve_cache exStC 5 "msg five" 5 ["\\Flagged"] rfl
  exact ⟨h.2.2.2.1, h.2.2.2.2.2.2.1⟩

/-- C10 counterexample: with the absent UID 5 still occupying the cache slot
(a reachable state: pop leaves the popped UID cached), `pop(5, default)`
raises `ValueError` from the flag fetch — NOT `KeyError` — and the
explicitly supplied non-None default is not returned either. -/
theorem c10_pop_counterexample :
    ImapMailbox.pop c10St 5 (some someView) =
      (.error (.valueError "Unexpected results while fetching flags"), c10St,
        [Req.fetch 5 "(FLAGS)"])
    ∧ ImapMailbox.pop c10St 5 none =
      (.error (.valueError "Unexpected results while fetching flags"), c10St,
        [Req.fetch 5 "(FLAGS)"]) :=
  ⟨rfl, rfl⟩

/-- C10 amended: for an absent UID that is not the cached one, `pop` with an
explicit `None` default raises `KeyError("No such UID")` exactly as when no
default is supplied (Python `None` is the no-default sentinel, modelled for
both by `none`), and a non-None default is returned; when the absent UID is
the cached one, the flag fetch raises `ValueError` instead for every
default. -/
theorem c10_pop_default (st : MState) (u : Nat) (d : MsgView)
    (hhit : ImapMailbox.cacheHit st u = false)
    (hfind : (st.folders st.sel).msgs.find? (fun x => x.uid == u) = none) :
    ImapMailbox.pop st u none =
      (.error (.keyError "No such UID"), st, [Req.fetch u "(RFC822)"])
    ∧ ImapMailbox.pop st u (some d) = (.ok d, st, [Req.fetch u "(RFC822)"]) := by
  have hg := get_message_absent st u hhit hfind
  constructor
  · unfold ImapMailbox.pop
    simp only [hg]
  · unfold ImapMailbox.pop
    simp only [hg]

theorem srvAppend_msgs (st : MState) (n : String) (msg : InMsg) :
    ((srvAppend st n msg).folders n).msgs =
      (st.folders n).msgs ++
        [⟨(st.folders n).nextUid, msg.text, msg.flags, msg.idate⟩] := by
  unfold srvAppend
  rw [updFolder_self]

/-- C2 counterexample: `add` issues no expunge (the spec says it flushes),
and for a message carrying `\Deleted` the value returned (last element of
the UNDELETED search) is 1 while the maximum of `search("ALL")` afterwards
is 2. -/
theorem c2_add_counterexample :
    (ImapMailbox.add c2St c2Msg).1 = .ok 1
    ∧ Req.expungeReq ∉ (ImapMailbox.add c2St c2Msg).2.2
    ∧ (ImapMailbox.search (ImapMailbox.add c2St c2Msg).2.1 "ALL" none).1 =
        .ok [1, 2] := by
  refine ⟨rfl, by decide, rfl⟩

/-- C2 amended: `add` appends the message and returns the LAST element of
`search("UNDELETED")` without issuing any flush/expunge request; when the
message does not carry `\Deleted`, that value is the new message's UID,
which is the maximum of the post-append "ALL" UID set (so `search("ALL")`
right after `add` has the returned value as its maximum). -/
theorem c2_add_amended (st : MState) (msg : InMsg)
    (hwf : folderWF (st.folders st.sel) = true)
    (hnd : msg.flags.contains "\\Deleted" = false) :
    ImapMailbox.add st msg =
      (.ok (Int.ofNat (st.folders st.sel).nextUid), srvAppend st st.sel msg,
        [Req.appendReq st.sel msg.flags msg.text, Req.searchReq none "(UNDELETED)"])
    ∧ (st.folders st.sel).nextUid ∈ allUids (srvAppend st st.sel msg)
    ∧ ∀ x ∈ allUids (srvAppend st st.sel msg), x ≤ (st.folders st.sel).nextUid := by
  have hsel : (srvAppend st st.sel msg).sel = st.sel := rfl
  have hmsgs : ((srvAppend st st.sel msg).folders st.sel).msgs =
      (st.folders st.sel).msgs ++
        [⟨(st.folders st.sel).nextUid, msg.text, msg.flags, msg.idate⟩] :=
    srvAppend_msgs st st.sel msg
  have hndmsg : notDeleted ⟨(st.folders st.sel).nextUid, msg.text, msg.flags,
      msg.idate⟩ = true := by
    unfold notDeleted
    rw [show (⟨(st.folders st.sel).nextUid, msg.text, msg.flags, msg.idate⟩ :
      Msg).flags = msg.flags from rfl]
    rw [hnd]
    rfl
  have hund : undeletedOf ((srvAppend st st.sel msg).folders
      (srvAppend st st.sel msg).sel).msgs =
      undeletedOf (st.folders st.sel).msgs ++
        [⟨(st.folders st.sel).nextUid, msg.text, msg.flags, msg.idate⟩] := by
    rw [show ((srvAppend st st.sel msg).folders (srvAppend st st.sel msg).sel).msgs
      = ((srvAppend st st.sel msg).folders st.sel).msgs from rfl]
    rw [hmsgs]
    unfold undeletedOf
    rw [List.filter_append]
    congr 1
    rw [List.filter_cons, if_pos hndmsg]
    rfl
  refine ⟨?_, ?_, ?_⟩
  · unfold ImapMailbox.add ImapMailbox.get_all_uids
    simp only [search_undeleted_eq, hund, List.map_append, List.map_cons,
      List.map_nil, List.getLast?_concat]
  · unfold allUids
    rw [hsel, hmsgs, List.map_append]
    refine List.mem_append_right _ ?_
    simp
  · intro x hx
    unfold allUids at hx
    rw [hsel, hmsgs, List.map_append] at hx
    rcases List.mem_append.mp hx with h1 | h1
    · rcases List.mem_map.mp h1 with ⟨y, hy, hyx⟩
      have := folderWF_lt _ hwf y hy
      omega
    · simp at h1
      omega

/-- C2 witness: adding an undeleted message to the concrete mailbox returns
UID 13 = the new maximum. -/
theorem c2_add_witness :
    ImapMailbox.add exSt ⟨"new", [], 42⟩ =
      (.ok 13, srvAppend exSt "INBOX" ⟨"new", [], 42⟩,
        [Req.appendReq "INBOX" [] "new", Req.searchReq none "(UNDELETED)"])
    ∧ (13 : Nat) ∈ allUids (srvAppend exSt "INBOX" ⟨"new", [], 42⟩) := by
  have h := c2_add_amended exSt ⟨"new", [], 42⟩ rfl rfl
  exact ⟨h.1, h.2.1⟩

theorem allUids_srvCopy_ne (st : MState) (u : Nat) (t : String) (h : t ≠ st.sel) :
    allUids (srvCopy st u t) = allUids st := by
  unfold allUids
  rw [show (srvCopy st u t).sel = st.sel from srvCopy_sel st u t]
  unfold srvCopy
  rcases hf : (st.folders st.sel).msgs.find? (fun m => m.uid == u) with _ | m
  · simp only [hf]
  · simp only [hf]
    rw [updFolder_other _ _ _ _ (fun hx => h hx.symm)]

theorem allUids_srvExpunge_srvStoreAdd (st : MState) (u : Nat) (f : String) :
    allUids (srvExpunge (srvStoreAdd st u f)) =
      (undeletedOf ((st.folders st.sel).msgs.map (addFlagUpd u f))).map
        (fun m => m.uid) := by
  unfold allUids
  rw [show (srvExpunge (srvStoreAdd st u f)).sel = st.sel from rfl]
  rw [show ((srvExpunge (srvStoreAdd st u f)).folders st.sel).msgs
    = undeletedOf ((srvStoreAdd st u f).folders (srvStoreAdd st u f).sel).msgs
    from srvExpunge_msgs (srvStoreAdd st u f)]
  rw [show ((srvStoreAdd st u f).folders (srvStoreAdd st u f).sel).msgs
    = (st.folders st.sel).msgs.map (addFlagUpd u f)
    from srvStoreAdd_msgs st u f]

/-- C6 counterexample: with a trash folder configured, `discard(5)` does NOT
remove UID 5 from the source folder's `search("ALL")` result — the message
is copied to trash and flagged `\Deleted` but remains listed until
expunge. -/
theorem c6_discard_counterexample :
    (ImapMailbox.discard c6St 5).1 = .ok ()
    ∧ (ImapMailbox.search (ImapMailbox.discard c6St 5).2.1 "ALL" none).1 =
        .ok [5, 9, 12] :=
  ⟨rfl, rfl⟩

/-- C6 amended: `discard(u)` of a present UID with no trash configured sets
the `\Deleted` flag in place; `search("ALL")` is unchanged (u stays a member
until `expunge()`, after which it is gone).  With a trash folder configured
(a name other than the source folder), the message is copied to the trash
folder and the source UID is flagged `\Deleted`: it likewise remains in the
source's "ALL" set until expunge, after which it is gone, while the copy
stays in the trash folder. -/
theorem c6_discard_amended (st : MState) (u : Nat) (m : Msg)
    (hfind : (st.folders st.sel).msgs.find? (fun x => x.uid == u) = some m) :
    (st.trash = none →
      ImapMailbox.discard st u =
        (.ok (), srvStoreAdd st u "\\Deleted", [Req.store u "+FLAGS" "(\\Deleted)"])
      ∧ (ImapMailbox.search (srvStoreAdd st u "\\Deleted") "ALL" none).1 =
          .ok ((allUids st).map Int.ofNat)
      ∧ u ∈ allUids st
      ∧ u ∉ allUids (srvExpunge (srvStoreAdd st u "\\Deleted")))
    ∧ (∀ t, st.trash = some (Target.str t) → t ≠ st.sel →
      ImapMailbox.discard st u =
        (.ok (), srvStoreAdd (srvCopy st u t) u "\\Deleted",
          [Req.copyReq u t, Req.store u "+FLAGS" "(\\Deleted)"])
      ∧ ((srvStoreAdd (srvCopy st u t) u "\\Deleted").folders t).msgs =
          (st.folders t).msgs ++ [{ m with uid := (st.folders t).nextUid }]
      ∧ allUids (srvStoreAdd (srvCopy st u t) u "\\Deleted") = allUids st
      ∧ u ∈ allUids st
      ∧ u ∉ allUids (srvExpunge (srvStoreAdd (srvCopy st u t) u "\\Deleted"))) := by
  have hpred0 := List.find?_some hfind
  have hpred : (m.uid == u) = true := hpred0
  have hmem0 : m ∈ (st.folders st.sel).msgs := List.mem_of_find?_eq_some hfind
  have hmemall : u ∈ allUids st := by
    unfold allUids
    exact List.mem_map.mpr ⟨m, hmem0, eq_of_beq hpred⟩
  constructor
  · intro htrash
    refine ⟨?_, ?_, hmemall, ?_⟩
    · unfold ImapMailbox.discard
      simp only [htrash]
      rfl
    · rw [search_all_eq]
      show Except.ok ((allUids (srvStoreAdd st u "\\Deleted")).map Int.ofNat) = _
      rw [allUids_srvStoreAdd]
    · rw [allUids_srvExpunge_srvStoreAdd]
      exact addDel_expunge_not_mem (st.folders st.sel).msgs u
  · intro t htr ht
    have htn : ImapMailbox.targetName (Target.str t) = t := rfl
    refine ⟨?_, ?_, ?_, hmemall, ?_⟩
    · unfold ImapMailbox.discard
      simp only [htr]
      rw [move_eval, htn, if_neg ht]
    · have h1 : (srvStoreAdd (srvCopy st u t) u "\\Deleted").folders t
          = (srvCopy st u t).folders t := by
        unfold srvStoreAdd
        exact updFolder_other _ _ _ _ (by rw [srvCopy_sel]; exact ht)
      rw [h1]
      unfold srvCopy
      simp only [hfind]
      rw [updFolder_self]
    · rw [allUids_srvStoreAdd, allUids_srvCopy_ne st u t ht]
    · rw [allUids_srvExpunge_srvStoreAdd]
      have hS : ((srvCopy st u t).folders (srvCopy st u t).sel).msgs
          = (st.folders st.sel).msgs := by
        rw [show (srvCopy st u t).sel = st.sel from srvCopy_sel st u t]
        unfold srvCopy
        rcases hf2 : (st.folders st.sel).msgs.find? (fun x => x.uid == u) with _ | m2
        · simp only [hf2]
        · simp only [hf2]
          rw [updFolder_other _ _ _ _ (fun hx => ht hx.symm)]
      rw [hS]
      exact addDel_expunge_not_mem (st.folders st.sel).msgs u

/-- C6 witness: the amended discard behaviour at the concrete mailbox, with
and without a trash folder. -/
theorem c6_discard_witness :
    ImapMailbox.discard exSt 5 =
      (.ok (), srvStoreAdd exSt 5 "\\Deleted", [Req.store 5 "+FLAGS" "(\\Deleted)"])
    ∧ (5 : Nat) ∉ allUids (srvExpunge (srvStoreAdd exSt 5 "\\Deleted"))
    ∧ ((srvStoreAdd (srvCopy c6St 5 "Trash") 5 "\\Deleted").folders "Trash").msgs =
        (c6St.folders "Trash").msgs ++
          [{ msg5 with uid := (c6St.folders "Trash").nextUid }]
    ∧ (5 : Nat) ∈ allUids c6St := by
  have hA := (c6_discard_amended exSt 5 msg5 rfl).1 rfl
  have hB := (c6_discard_amended c6St 5 msg5 rfl).2 "Trash" rfl (by decide)
  exact ⟨hA.1, hA.2.2.2, hB.2.1, hB.2.2.2.1⟩

/-- C8: `popitem()` flushes first; if `search("ALL")` is then empty it fails
with `KeyError("Mailbox is empty")` and only the flush has been applied;
otherwise it takes the FIRST UID of the snapshot, returns it paired with
that message's assembled content, flags it deleted and flushes again, so
exactly the remaining messages survive and a subsequent `search("ALL")`
reports their UIDs. -/
theorem c8_popitem (st : MState)
    (hwf : folderWF (st.folders st.sel) = true)
    (hcache : cacheOk st = true)
    (htrash : st.trash = none) :
    (undeletedOf (st.folders st.sel).msgs = [] →
      ImapMailbox.popitem st =
        (.error (.keyError "Mailbox is empty"), srvExpunge st,
          [Req.expungeReq, Req.searchReq none "(ALL)"]))
    ∧ ∀ m rest, undeletedOf (st.folders st.sel).msgs = m :: rest →
        (ImapMailbox.popitem st).1 =
          .ok (Int.ofNat m.uid, ⟨m.text, m.flags, m.idate, m.text.length⟩)
        ∧ ((ImapMailbox.popitem st).2.1.folders st.sel).msgs = rest
        ∧ (ImapMailbox.search (ImapMailbox.popitem st).2.1 "ALL" none).1 =
            .ok ((rest.map (fun x => x.uid)).map Int.ofNat) := by
  constructor
  · intro hempty
    have hmsgs1 : ((srvExpunge st).folders (srvExpunge st).sel).msgs = [] := by
      rw [show ((srvExpunge st).folders (srvExpunge st).sel).msgs
        = undeletedOf (st.folders st.sel).msgs from srvExpunge_msgs st, hempty]
    unfold ImapMailbox.popitem ImapMailbox.expunge
    simp only [search_all_eq, hmsgs1, List.map_nil]
    rfl
  · intro m rest hlive
    have hmsgs1 : ((srvExpunge st).folders (srvExpunge st).sel).msgs = m :: rest := by
      rw [show ((srvExpunge st).folders (srvExpunge st).sel).msgs
        = undeletedOf (st.folders st.sel).msgs from srvExpunge_msgs st, hlive]
    have hmemm : m ∈ undeletedOf (st.folders st.sel).msgs := by
      rw [hlive]
      exact List.mem_cons_self m rest
    have hmnd : notDeleted m = true := List.of_mem_filter hmemm
    have hrestnd : ∀ x ∈ rest, notDeleted x = true := by
      intro x hx
      have hxm : x ∈ undeletedOf (st.folders st.sel).msgs := by
        rw [hlive]
        exact List.mem_cons_of_mem m hx
      exact List.of_mem_filter hxm
    have hsorted : sortedUids (m :: rest) = true := by
      have hs := sortedUids_filter notDeleted (st.folders st.sel).msgs
        (folderWF_sorted _ hwf)
      rw [show (st.folders st.sel).msgs.filter notDeleted
        = undeletedOf (st.folders st.sel).msgs from rfl, hlive] at hs
      exact hs
    have hlt : ∀ x ∈ rest, m.uid < x.uid := sortedUids_head_lt rest m hsorted
    have h1 : ImapMailbox.search (srvExpunge st) "ALL" none =
        (.ok (((m :: rest).map (fun x => x.uid)).map Int.ofNat), srvExpunge st,
          [Req.searchReq none "(ALL)"]) := by
      rw [search_all_eq, hmsgs1]
    have h2 : ((srvExpunge st).folders (srvExpunge st).sel).msgs.find?
        (fun x => x.uid == m.uid) = some m := by
      rw [hmsgs1]
      exact List.find?_cons_of_pos _ (by simp)
    have h3 : cacheOk (srvExpunge st) = true := cacheOk_srvExpunge st hcache
    obtain ⟨c, tr2, hgm⟩ := get_message_found (srvExpunge st) m.uid m h2 h3
    have htrash2 : (MState.mk (srvExpunge st).folders (srvExpunge st).sel c
        (srvExpunge st).trash).trash = none := htrash
    have hmem2 : m.uid ∈ ((MState.mk (srvExpunge st).folders (srvExpunge st).sel c
        (srvExpunge st).trash).folders
        (MState.mk (srvExpunge st).folders (srvExpunge st).sel c
          (srvExpunge st).trash).sel).msgs.map (fun x => x.uid) := by
      have e3 : ((MState.mk (srvExpunge st).folders (srvExpunge st).sel c
          (srvExpunge st).trash).folders
          (MState.mk (srvExpunge st).folders (srvExpunge st).sel c
            (srvExpunge st).trash).sel).msgs = m :: rest := hmsgs1
      rw [e3]
      exact List.mem_map.mpr ⟨m, List.mem_cons_self m rest, rfl⟩
    have h5 : ImapMailbox.delitem (MState.mk (srvExpunge st).folders
        (srvExpunge st).sel c (srvExpunge st).trash) m.uid =
        (.ok (), srvStoreAdd (MState.mk (srvExpunge st).folders (srvExpunge st).sel c
            (srvExpunge st).trash) m.uid "\\Deleted",
          [Req.searchReq none "(ALL)", Req.store m.uid "+FLAGS" "(\\Deleted)"]) :=
      remove_found_notrash (MState.mk (srvExpunge st).folders (srvExpunge st).sel c
        (srvExpunge st).trash) m.uid htrash2 hmem2
    have hfinal : ((srvExpunge (srvStoreAdd (MState.mk (srvExpunge st).folders
        (srvExpunge st).sel c (srvExpunge st).trash)
        m.uid "\\Deleted")).folders st.sel).msgs = rest := by
      have e1 : ((srvExpunge (srvStoreAdd (MState.mk (srvExpunge st).folders
          (srvExpunge st).sel c (srvExpunge st).trash)
          m.uid "\\Deleted")).folders st.sel).msgs =
          undeletedOf ((srvStoreAdd (MState.mk (srvExpunge st).folders
            (srvExpunge st).sel c (srvExpunge st).trash) m.uid
            "\\Deleted").folders (srvStoreAdd (MState.mk (srvExpunge st).folders
            (srvExpunge st).sel c (srvExpunge st).trash)
            m.uid "\\Deleted").sel).msgs :=
        srvExpunge_msgs (srvStoreAdd (MState.mk (srvExpunge st).folders
          (srvExpunge st).sel c (srvExpunge st).trash) m.uid "\\Deleted")
      have e2 : ((srvStoreAdd (MState.mk (srvExpunge st).folders (srvExpunge st).sel
          c (srvExpunge st).trash) m.uid
          "\\Deleted").folders (srvStoreAdd (MState.mk (srvExpunge st).folders
          (srvExpunge st).sel c (srvExpunge st).trash)
          m.uid "\\Deleted").sel).msgs =
          (m :: rest).map (addFlagUpd m.uid "\\Deleted") := by
        rw [show ((srvStoreAdd (MState.mk (srvExpunge st).folders (srvExpunge st).sel
          c (srvExpunge st).trash) m.uid
          "\\Deleted").folders (srvStoreAdd (MState.mk (srvExpunge st).folders
          (srvExpunge st).sel c (srvExpunge st).trash)
          m.uid "\\Deleted").sel).msgs
          = ((MState.mk (srvExpunge st).folders (srvExpunge st).sel c
              (srvExpunge st).trash).folders
              (MState.mk (srvExpunge st).folders (srvExpunge st).sel c
                (srvExpunge st).trash).sel).msgs.map
              (addFlagUpd m.uid "\\Deleted")
          from srvStoreAdd_msgs (MState.mk (srvExpunge st).folders
            (srvExpunge st).sel c (srvExpunge st).trash) m.uid "\\Deleted"]
        rw [show ((MState.mk (srvExpunge st).folders (srvExpunge st).sel c
          (srvExpunge st).trash).folders
          (MState.mk (srvExpunge st).folders (srvExpunge st).sel c
            (srvExpunge st).trash).sel).msgs = m :: rest
          from hmsgs1]
      rw [e1, e2]
      exact undeletedOf_addDel_head m rest hmnd hrestnd hlt
    have hpop : ImapMailbox.popitem st =
        (.ok (Int.ofNat m.uid, ⟨m.text, m.flags, m.idate, m.text.length⟩),
          srvExpunge (srvStoreAdd (MState.mk (srvExpunge st).folders
            (srvExpunge st).sel c (srvExpunge st).trash) m.uid "\\Deleted"),
          [Req.expungeReq] ++ [Req.searchReq none "(ALL)"] ++ tr2 ++
            [Req.searchReq none "(ALL)", Req.store m.uid "+FLAGS" "(\\Deleted)"] ++
            [Req.expungeReq]) := by
      have htn : (Int.ofNat m.uid).toNat = m.uid := rfl
      unfold ImapMailbox.popitem ImapMailbox.expunge
      simp only [h1, List.map_cons, htn, hgm, h5]
    refine ⟨?_, ?_, ?_⟩
    · rw [hpop]
    · rw [hpop]
      exact hfinal
    · rw [hpop, search_all_eq]
      have hfinal2 : ((srvExpunge (srvStoreAdd (MState.mk (srvExpunge st).folders
          (srvExpunge st).sel c (srvExpunge st).trash)
          m.uid "\\Deleted")).folders (srvExpunge (srvStoreAdd
          (MState.mk (srvExpunge st).folders (srvExpunge st).sel c
            (srvExpunge st).trash) m.uid "\\Deleted")).sel).msgs =
          rest := hfinal
      rw [hfinal2]

/-- C8 witness: the empty-mailbox failure and the {5, 9, 12} scenario on the
concrete states. -/
theorem c8_popitem_witness :
    ImapMailbox.popitem exDelSt =
      (.error (.keyError "Mailbox is empty"), srvExpunge exDelSt,
        [Req.expungeReq, Req.searchReq none "(ALL)"])
    ∧ (ImapMailbox.popitem exSt).1 = .ok (5, ⟨"msg five", [], 100, 8⟩)
    ∧ (ImapMailbox.search (ImapMailbox.popitem exSt).2.1 "ALL" none).1 =
        .ok [9, 12] := by
  have hE := (c8_popitem exDelSt rfl rfl rfl).1 rfl
  have hN := (c8_popitem exSt rfl rfl rfl).2 msg5 [msg9, msg12] rfl
  exact ⟨hE, hN.1, hN.2.2⟩

/-- C10 witness: the amended pop behaviour on an empty mailbox with an empty
cache. -/
theorem c10_pop_witness :
    ImapMailbox.pop c10Empty 5 none =
      (.error (.keyError "No such UID"), c10Empty, [Req.fetch 5 "(RFC822)"])
    ∧ ImapMailbox.pop c10Empty 5 (some someView) =
      (.ok someView, c10Empty, [Req.fetch 5 "(RFC822)"]) := by
  have h := c10_pop_default c10Empty 5 someView rfl rfl
  exact ⟨h.1, h.2⟩

end ProcImap
